import Mathlib

/-!
Verification development for the `my-ai-news-aggregator` repository.

The Python sources under `src/` are shallowly embedded below:

* timestamps are modelled as `Int` seconds since the Unix epoch (all the
  datetimes in the source carry `timezone.utc`, so a single linear scale is
  faithful; the source sorts ISO-8601 strings produced by
  `model_dump(mode="json")`, and for the fixed-width UTC format emitted
  there lexicographic string order coincides with chronological order, so
  sorting by the integer timestamp models the string sort);
* a `feedparser` entry is a record of optional fields (`getattr`/`.get`
  with a default translates to `Option.getD`);
* Python exceptions that can escape a function are modelled with
  `Except String`; functions that catch all their exceptions are total;
* network and external-library effects (HTTP fetches, docling conversion,
  the transcript API) are passed in as explicit oracle functions, so that
  the embedded code stays pure while the control flow around the effect is
  translated verbatim.
-/

/-- Seconds in one day, used to model
`datetime.replace(hour=0, minute=0, second=0, microsecond=0)`. -/
def secondsPerDay : Int := 86400

/-- Rounding a UTC timestamp down to the start of its day, the model of
`.replace(hour=0, minute=0, second=0, microsecond=0)` on an aware datetime.
`Int`'s `%` is `Int.emod`, whose result is non-negative for a positive
modulus, so this is a true floor also before the epoch. -/
def startOfDay (t : Int) : Int := t - t % secondsPerDay

/-- Model of Python's stable `list.sort(key=..., reverse=True)`:
insertion sort (stable, like Timsort) by the key, descending. -/
def sortDesc (key : α → Int) (l : List α) : List α :=
  List.insertionSort (fun a b => key b ≤ key a) l

theorem sorted_sortDesc (key : α → Int) (l : List α) :
    List.Sorted (fun a b => key b ≤ key a) (sortDesc key l) := by
  haveI : IsTotal α (fun a b => key b ≤ key a) :=
    ⟨fun a b => le_total (key b) (key a)⟩
  haveI : IsTrans α (fun a b => key b ≤ key a) :=
    ⟨fun _ _ _ hab hbc => le_trans hbc hab⟩
  exact List.sorted_insertionSort _ l

theorem perm_sortDesc (key : α → Int) (l : List α) :
    List.Perm (sortDesc key l) l :=
  List.perm_insertionSort _ l

theorem mem_sortDesc {key : α → Int} {l : List α} {a : α} :
    a ∈ sortDesc key l ↔ a ∈ l :=
  (perm_sortDesc key l).mem_iff

/-- One raw `feedparser` entry.  Each field models the corresponding
attribute/key of the Python entry object; `none` models an absent
attribute.  Timestamps (`*_parsed` fields, `struct_time` in Python) are
already reduced to epoch seconds. -/
structure RawEntry where
  published_parsed  : Option Int    := none
  updated_parsed    : Option Int    := none
  yt_videoid        : Option String := none
  title             : Option String := none
  media_description : Option String := none
  summary           : Option String := none
  link              : Option String := none
  description       : Option String := none
  id                : Option String := none
  /-- `entry.get("tags")`: the list of the tag dicts' `term` values
  (`none` for a tag dict without `term`); the empty list also models a
  missing `tags` attribute, since Python treats both as falsy in
  `(entry.get("tags") or [{}])`. -/
  tags              : List (Option String) := []
  /-- `entry.content`: `none` models `hasattr(entry, "content")` false,
  otherwise the list of the items' `value` fields. -/
  content           : Option (List (Option String)) := none
deriving Repr, DecidableEq

/-- Model of Python's `str.strip()` (no arguments): remove leading and
trailing whitespace. -/
def pythonStrip (s : String) : String :=
  String.mk (((s.data.dropWhile Char.isWhitespace).reverse.dropWhile
    Char.isWhitespace).reverse)

/-- Character-list prefix test (used instead of `String.startsWith`,
which the kernel cannot evaluate; the semantics is identical, and it
also models Python's `str.startswith`). -/
def startsWithChars : List Char → List Char → Bool
  | _, [] => true
  | [], _ :: _ => false
  | c :: cs, p :: ps => c = p && startsWithChars cs ps

/-- `s.startswith(pre)`. -/
def pythonStartsWith (s pre : String) : Bool :=
  startsWithChars s.data pre.data

/-- Model of Python's `str.lower()` (ASCII case mapping suffices for the
category keys and URLs appearing here). -/
def pythonLower (s : String) : String :=
  String.mk (s.data.map Char.toLower)

/-- Simplified model of pydantic's `AnyHttpUrl` field validation: the
value must carry an http(s) scheme.  (The real validator checks more, but
the embedded claims only rely on the fact that the empty string — the
`.get(..., "")` default — is rejected.) -/
def isHttpUrl (u : String) : Bool :=
  pythonStartsWith u "http://" || pythonStartsWith u "https://"

/-! ## YouTube scraper (`src/scrapers/youtube_scraper.py`) -/

namespace YouTubeScraper

/-- `YT_BASE_URL`. -/
def YT_BASE_URL : String := "https://www.youtube.com"

/-- `DEFAULT_LANGUAGES`. -/
def DEFAULT_LANGUAGES : List String := ["en", "en-US", "en-GB"]

/-- The character class `[a-zA-Z0-9_-]` of `CHANNEL_ID_RE`. -/
def isIdChar (c : Char) : Bool := c.isAlphanum || c = '_' || c = '-'

/-- `CHANNEL_ID_RE.fullmatch`: the whole string is `UC` followed by
exactly 22 characters from `[a-zA-Z0-9_-]`. -/
def isChannelId (s : String) : Bool :=
  match s.data with
  | c1 :: c2 :: rest =>
    c1 = 'U' && c2 = 'C' && rest.length = 22 && rest.all isIdChar
  | _ => false

/-- `YouTubeScraper._build_channel_url`. -/
def buildChannelUrl (name : String) : String :=
  if pythonStartsWith name "http" then name
  else if pythonStartsWith name "@" || pythonStartsWith name "c/" ||
      pythonStartsWith name "user/" || pythonStartsWith name "channel/" then
    YT_BASE_URL ++ "/" ++ name
  else
    YT_BASE_URL ++ "/@" ++ name

/-! The regex strategies of `_extract_channel_id`, embedded as character
scanners over the page text.  `re.search` is modelled by trying a
match-at-position function at every suffix, left to right. -/

/-- Match an exact literal at the head of the input, returning the rest. -/
def expectLit : List Char → List Char → Option (List Char)
  | [], cs => some cs
  | _ :: _, [] => none
  | l :: ls, c :: cs => if c = l then expectLit ls cs else none

/-- `\s*`: drop any leading whitespace. -/
def skipWs0 (cs : List Char) : List Char := cs.dropWhile Char.isWhitespace

/-- `\s+`: require at least one whitespace character, then drop the run. -/
def skipWs1 : List Char → Option (List Char)
  | [] => none
  | c :: cs => if c.isWhitespace then some (cs.dropWhile Char.isWhitespace)
    else none

/-- The capture group `(UC[a-zA-Z0-9_-]{22})`: read `UC` plus exactly 22
id characters, returning the captured string and the rest of the input. -/
def readChannelId : List Char → Option (String × List Char)
  | 'U' :: 'C' :: rest =>
    let body := rest.take 22
    if body.length = 22 && body.all isIdChar then
      some (String.mk ('U' :: 'C' :: body), rest.drop 22)
    else none
  | _ => none

/-- Strategy 1 matcher:
`<meta\s+itemprop="identifier"\s+content="(UC[a-zA-Z0-9_-]{22})"`. -/
def metaIdentifierAt (cs : List Char) : Option String := do
  let cs ← expectLit "<meta".data cs
  let cs ← skipWs1 cs
  let cs ← expectLit "itemprop=\"identifier\"".data cs
  let cs ← skipWs1 cs
  let cs ← expectLit "content=\"".data cs
  let (cid, cs) ← readChannelId cs
  let _ ← expectLit "\"".data cs
  pure cid

/-- Strategy 2 matcher: `"externalId"\s*:\s*"(UC[a-zA-Z0-9_-]{22})"`. -/
def externalIdAt (cs : List Char) : Option String := do
  let cs ← expectLit "\"externalId\"".data cs
  let cs ← expectLit ":".data (skipWs0 cs)
  let cs ← expectLit "\"".data (skipWs0 cs)
  let (cid, cs) ← readChannelId cs
  let _ ← expectLit "\"".data cs
  pure cid

/-- The `[^"]+/channel/(UC[a-zA-Z0-9_-]{22})"` tail of strategy 3: after
at least one non-quote character, `/channel/` followed by the id and a
closing quote.  (The regex engine's greedy backtracking would prefer the
rightmost such split; left-to-right scanning finds a match exactly when
one exists, which is all the embedded claims rely on.) -/
def canonicalScan : List Char → Option String
  | [] => none
  | c :: rest =>
    if c = '"' then none
    else
      match (do
        let cs ← expectLit "/channel/".data rest
        let (cid, cs) ← readChannelId cs
        let _ ← expectLit "\"".data cs
        pure cid) with
      | some cid => some cid
      | none => canonicalScan rest

/-- Strategy 3 matcher:
`<link\s+rel="canonical"\s+href="[^"]+/channel/(UC[a-zA-Z0-9_-]{22})"`. -/
def canonicalAt (cs : List Char) : Option String := do
  let cs ← expectLit "<link".data cs
  let cs ← skipWs1 cs
  let cs ← expectLit "rel=\"canonical\"".data cs
  let cs ← skipWs1 cs
  let cs ← expectLit "href=\"".data cs
  canonicalScan cs

/-- Strategy 4 matcher: `feeds/videos\.xml\?channel_id=(UC[a-zA-Z0-9_-]{22})`. -/
def feedsXmlAt (cs : List Char) : Option String := do
  let cs ← expectLit "feeds/videos.xml?channel_id=".data cs
  let (cid, _) ← readChannelId cs
  pure cid

/-- The inner pattern of the header fallback:
`"channelId"\s*:\s*"(UC[a-zA-Z0-9_-]{22})"`. -/
def channelIdFieldAt (cs : List Char) : Option String := do
  let cs ← expectLit "\"channelId\"".data cs
  let cs ← expectLit ":".data (skipWs0 cs)
  let cs ← expectLit "\"".data (skipWs0 cs)
  let (cid, cs) ← readChannelId cs
  let _ ← expectLit "\"".data cs
  pure cid

/-- `re.search`: try the match-at-position function at every suffix. -/
def searchScan (m : List Char → Option String) : List Char → Option String
  | [] => m []
  | c :: rest =>
    match m (c :: rest) with
    | some r => some r
    | none => searchScan m rest

/-- The header fallback: `"header"\s*:\s*\{(.{0,2000})` (DOTALL) followed
by a search for the `channelId` pattern inside the captured window. -/
def headerAt (cs : List Char) : Option String := do
  let cs ← expectLit "\"header\"".data cs
  let cs ← expectLit ":".data (skipWs0 cs)
  let cs ← expectLit "\x7b".data (skipWs0 cs)
  searchScan channelIdFieldAt (cs.take 2000)

/-- `YouTubeScraper._extract_channel_id`: the four regex strategies in
order, then the `"header"` fallback; `none` when nothing matches (the
source then prints a message and returns `None`). -/
def extractChannelId (html : String) : Option String :=
  let cs := html.data
  match searchScan metaIdentifierAt cs with
  | some r => some r
  | none =>
  match searchScan externalIdAt cs with
  | some r => some r
  | none =>
  match searchScan canonicalAt cs with
  | some r => some r
  | none =>
  match searchScan feedsXmlAt cs with
  | some r => some r
  | none => searchScan headerAt cs

/-- `YouTubeScraper.get_channel_id`.  The HTTP fetch (with
`raise_for_status`) is the oracle `fetch`; a `requests` exception is the
`.error` case, which the source catches and turns into `None`. -/
def get_channel_id (fetch : String → Except Unit String)
    (channel_name : String) : Option String :=
  let name := pythonStrip channel_name
  if isChannelId name then some name
  else
    match fetch (buildChannelUrl name) with
    | .error _ => none
    | .ok html => extractChannelId html

/-- `YouTubeScraper._parse_date`: `published_parsed` before
`updated_parsed`, first present value wins, else `None`. -/
def parseDate (e : RawEntry) : Option Int :=
  match e.published_parsed with
  | some ts => some ts
  | none => e.updated_parsed

/-- `YouTubeScraper._parse_description`: first truthy (present and
non-empty) of `media_description`, `summary`, else `""`. -/
def parseDescription (e : RawEntry) : String :=
  match e.media_description with
  | some v => if v = "" then (match e.summary with
      | some w => if w = "" then "" else w
      | none => "") else v
  | none =>
    match e.summary with
    | some w => if w = "" then "" else w
    | none => ""

/-- The validated `VideoMetadata` record (after
`model_dump(mode="json")`, with the timestamp kept numeric). -/
structure VideoMeta where
  title        : String
  video_id     : String
  url          : String
  published_at : Int
  description  : String
deriving Repr, DecidableEq

/-- Building the `VideoMetadata` for one in-window entry. -/
def mkVideoMeta (e : RawEntry) (published : Int) : VideoMeta :=
  { title := e.title.getD ""
    video_id := e.yt_videoid.getD ""
    url := YT_BASE_URL ++ "/watch?v=" ++ e.yt_videoid.getD ""
    published_at := published
    description := parseDescription e }

/-- The entry loop of `get_latest_videos`.  An entry without a parseable
date, or older than the cutoff, is skipped; an entry whose `yt_videoid`
strips to the empty string makes the `VideoMetadata` validator
(`must_be_non_empty`) raise, which nothing in the source catches, so the
whole call fails.  (The `AnyHttpUrl` validation of `url` cannot fail
here: the value is the fixed valid base URL plus the id.) -/
def ytGo (now cutoff : Int) : List RawEntry → Except String (List VideoMeta)
  | [] => .ok []
  | e :: rest =>
    match parseDate e with
    | none => ytGo now cutoff rest
    | some published =>
      if published < cutoff then ytGo now cutoff rest
      else if pythonStrip (e.yt_videoid.getD "") = "" then
        .error "video_id must not be empty"
      else
        match ytGo now cutoff rest with
        | .error msg => .error msg
        | .ok vids => .ok (mkVideoMeta e published :: vids)

/-- `YouTubeScraper.get_latest_videos` on an already-fetched feed:
filter by `cutoff = now - timedelta(hours=hours)`, validate, then sort
by `published_at` descending. -/
def get_latest_videos (feed : List RawEntry) (now : Int) (hours : Int) :
    Except String (List VideoMeta) :=
  match ytGo now (now - 3600 * hours) feed with
  | .error msg => .error msg
  | .ok vids => .ok (sortDesc (fun v => v.published_at) vids)

end YouTubeScraper

/-! ## Transcript retrieval (`youtube_transcript_api` usage in
`YouTubeScraper.get_transcript`) -/

namespace YouTubeScraper

/-- One transcript track: its language code and the text of its
snippets.  `transcript.fetch()` returning these snippets successfully is
modelled by the fetch oracle answering `.ok track.segments`. -/
structure Track where
  lang     : String
  segments : List String
deriving Repr, DecidableEq

/-- The available tracks of one video, as the `TranscriptList` object
stores them: manually created and auto-generated transcripts, keyed by
language (iteration yields the manual ones first). -/
structure TranscriptList where
  manual    : List Track
  generated : List Track
deriving Repr, DecidableEq

/-- The exception classes caught by `get_transcript`.
`NoTranscriptFound` (a subclass of `CouldNotRetrieveTranscript`) is not a
constructor here: the embedding models the library's find functions with
`Option`, and a `none` from the final fallback is handled in
`get_transcript` itself exactly where the subclass would be caught. -/
inductive TranscriptError where
  | transcriptsDisabled
  | videoUnavailable
  | requestBlocked
  | couldNotRetrieve
deriving Repr, DecidableEq

/-- The library's search of one transcript dictionary for an ordered
language list: the first language that has a track wins
(`find_manually_created_transcript` / `find_generated_transcript`). -/
def findInDict (langs : List String) (d : List Track) : Option Track :=
  langs.findSome? (fun l => d.find? (fun t => t.lang == l))

/-- The library's `find_transcript`: for each language in order, look in
the manually created dictionary first, then in the generated one. -/
def findTranscriptBoth (langs : List String) (tl : TranscriptList) :
    Option Track :=
  langs.findSome? (fun l =>
    match tl.manual.find? (fun t => t.lang == l) with
    | some t => some t
    | none => tl.generated.find? (fun t => t.lang == l))

/-- `[t.language_code for t in transcript_list]`: iteration order is
manual tracks first, then generated. -/
def listCodes (tl : TranscriptList) : List String :=
  tl.manual.map (fun t => t.lang) ++ tl.generated.map (fun t => t.lang)

/-- The try/except chain of `get_transcript` steps 2–3:
manually created in the preferred languages, else generated in the
preferred languages, else `find_transcript` over every listed language
code. -/
def selectTranscript (langs : List String) (tl : TranscriptList) :
    Option Track :=
  match findInDict langs tl.manual with
  | some t => some t
  | none =>
    match findInDict langs tl.generated with
    | some t => some t
    | none => findTranscriptBoth (listCodes tl) tl

/-- `YouTubeScraper.get_transcript`.  `listed` is the outcome of
`self._transcript_api.list(video_id)` and `fetch` the outcome of
`transcript.fetch()`; every `TranscriptError` (including the
`NoTranscriptFound` escaping the final fallback, i.e. the `none` branch)
is caught and turned into `None`.  The snippet texts are joined with
single spaces. -/
def get_transcript (langs : List String)
    (listed : Except TranscriptError TranscriptList)
    (fetch : Track → Except TranscriptError (List String)) : Option String :=
  match listed with
  | .error _ => none
  | .ok tl =>
    match selectTranscript langs tl with
    | none => none
    | some t =>
      match fetch t with
      | .error _ => none
      | .ok segs => some (String.intercalate " " segs)

end YouTubeScraper

/-! ## Anthropic scraper (`src/scrapers/anthropic_scrapper.py`) -/

namespace AnthropicScraper

/-- The validated `AnthropicArticle` record (after
`model_dump(mode="json")`, timestamp kept numeric). -/
structure AnthropicArticle where
  title        : String
  description  : String
  url          : String
  guid         : String
  published_at : Int
  category     : Option String
  content      : String
deriving Repr, DecidableEq

/-- `AnthropicScraper.get_article_content`: the docling conversion
oracle's failure (any exception) degrades to the empty string. -/
def get_article_content (convert : String → Except String String)
    (url : String) : String :=
  match convert url with
  | .ok md => md
  | .error _ => ""

/-- The cutoff of `fetch_articles`:
`(now - timedelta(hours=hours)).replace(hour=0, ...)` — the day-floor of
`now - hours`. -/
def cutoffOf (now hours : Int) : Int := startOfDay (now - 3600 * hours)

/-- Building the `AnthropicArticle` for one kept entry. -/
def mkArticle (e : RawEntry) (published : Int) (content : String) :
    AnthropicArticle :=
  { title := e.title.getD ""
    description := e.description.getD ""
    url := e.link.getD ""
    guid := e.id.getD (e.link.getD "")
    published_at := published
    category := match e.tags with
      | [] => none
      | t :: _ => t
    content := content }

/-- The entry loop of `fetch_articles` over the concatenation of the
three feeds (the `seen` set persists across feeds, so flattening is
faithful).  An entry without `published_parsed` gets `now` as its
timestamp; entries before the cutoff or with an already-seen URL are
skipped; a URL failing the `AnyHttpUrl` validation makes the pydantic
constructor raise, which nothing in the source catches. -/
def anthropicGo (now cutoff : Int) (withContent : Bool)
    (convert : String → Except String String) :
    List RawEntry → List String → Except String (List AnthropicArticle)
  | [], _ => .ok []
  | e :: rest, seen =>
    let published := e.published_parsed.getD now
    if published < cutoff then
      anthropicGo now cutoff withContent convert rest seen
    else
      let url := e.link.getD ""
      if seen.contains url then
        anthropicGo now cutoff withContent convert rest seen
      else
        let content :=
          if withContent then get_article_content convert url else ""
        if isHttpUrl url then
          match anthropicGo now cutoff withContent convert rest
              (url :: seen) with
          | .error msg => .error msg
          | .ok arts => .ok (mkArticle e published content :: arts)
        else .error "url is not a valid http url"

/-- `AnthropicScraper.fetch_articles` on already-fetched feeds: process
every feed's entries with one shared `seen` set, then sort by
`published_at` descending. -/
def fetch_articles (feeds : List (List RawEntry)) (now hours : Int)
    (withContent : Bool) (convert : String → Except String String) :
    Except String (List AnthropicArticle) :=
  match anthropicGo now (cutoffOf now hours) withContent convert
      feeds.flatten [] with
  | .error msg => .error msg
  | .ok arts => .ok (sortDesc (fun a => a.published_at) arts)

end AnthropicScraper

/-! ## OpenAI scraper (`src/scrapers/openai_scrapper.py`)

In the source, the statements from `published_time = ...` onward sit at
the indentation level of the `for` loop header, not of its body, so the
loop itself only rebinds `entry`/`published_parsed`, and after the loop
only the LAST entry's values are examined.  `published_time` is built
without a timezone while `cutoff_time` is timezone-aware, so on a
non-empty feed the function always raises a `TypeError`: either from
subscripting `None` (last entry without `published_parsed`) or from the
naive/aware `>=` comparison.  Only an empty feed returns normally. -/

namespace OpenAIScraper

structure OpenAIArticle where
  title        : String
  description  : String
  url          : String
  published_at : Int
  category     : Option String
deriving Repr, DecidableEq

/-- `OpenAIScraper.fetch_articles` on an already-fetched feed. -/
def fetch_articles (feed : List RawEntry) (_now _hours : Int) :
    Except String (List OpenAIArticle) :=
  match feed with
  | [] => .ok []
  | e :: rest =>
    match ((e :: rest).getLast (by simp)).published_parsed with
    | none => .error "TypeError: NoneType object is not subscriptable"
    | some _ =>
      .error "TypeError: cannot compare naive and aware datetimes"

end OpenAIScraper

/-! ## MarketWatch RSS scraper (`src/scrapers/marketwatch_rss.py`) -/

namespace MarketWatchRSS

/-- The keys of `_FEED_URLS`. -/
def categories : List String := ["topstories", "markets", "bulletins"]

structure MWArticle where
  title     : String
  url       : String
  published : Int
  content   : String
deriving Repr, DecidableEq

/-- `MarketWatchRSS._get_entry_date`: same candidate order as the
YouTube scraper's `_parse_date`. -/
def getEntryDate (e : RawEntry) : Option Int :=
  match e.published_parsed with
  | some ts => some ts
  | none => e.updated_parsed

/-- `MarketWatchRSS._extract_content`: join the `content` items'
values with newlines when the attribute exists, else the summary. -/
def extractContent (e : RawEntry) : String :=
  match e.content with
  | some items => String.intercalate "\n" (items.map (fun v => v.getD ""))
  | none => e.summary.getD ""

/-- `hours or self.default_hours`: `None` and `0` are both falsy, so
either selects the constructor default; any other value wins. -/
def effectiveHours (hours : Option Int) (dflt : Int) : Int :=
  match hours with
  | none => dflt
  | some h => if h = 0 then dflt else h

/-- The entry loop of `get_latest` (shared shape with LesAffaires). -/
def mwGo (cutoff : Int) : List RawEntry → Except String (List MWArticle)
  | [] => .ok []
  | e :: rest =>
    match getEntryDate e with
    | none => mwGo cutoff rest
    | some published =>
      if published < cutoff then mwGo cutoff rest
      else if isHttpUrl (e.link.getD "") then
        match mwGo cutoff rest with
        | .error msg => .error msg
        | .ok arts => .ok ({ title := e.title.getD ""
                             url := e.link.getD ""
                             published := published
                             content := extractContent e } :: arts)
      else .error "url is not a valid http url"

/-- `MarketWatchRSS.get_latest`: unknown categories raise `ValueError`;
the cutoff window is `hours or default_hours`; results are sorted by
`published` descending.  `feedOf` stands for fetching and parsing the
category's feed URL. -/
def get_latest (feedOf : String → List RawEntry) (now : Int)
    (default_hours : Int) (category : String) (hours : Option Int) :
    Except String (List MWArticle) :=
  if (categories.contains (pythonLower category)) = false then
    .error "ValueError: Unknown MarketWatch category"
  else
    let cutoff := now - 3600 * effectiveHours hours default_hours
    match mwGo cutoff (feedOf (pythonLower category)) with
    | .error msg => .error msg
    | .ok arts => .ok (sortDesc (fun a => a.published) arts)

end MarketWatchRSS

/-! ## Les Affaires RSS scraper (`src/scrapers/lesaffaires_rss.py`) -/

namespace LesAffairesRSS

/-- The keys of `_FEED_URLS`. -/
def categories : List String :=
  ["actualites-boursieres", "analyses", "placements", "revue-des-marches",
   "a-surveiller", "economie", "mes-finances", "fiscalite", "immobilier",
   "retraite", "techno", "energie", "commerce-de-detail", "environnement",
   "aeronautique", "manufacturier", "entrepreneuriat", "management",
   "marketing", "politique", "monde", "intelligence-artificielle",
   "opinions"]

structure LAArticle where
  title       : String
  url         : String
  published   : Int
  description : String
deriving Repr, DecidableEq

/-- `LesAffairesRSS._get_entry_date`. -/
def getEntryDate (e : RawEntry) : Option Int :=
  match e.published_parsed with
  | some ts => some ts
  | none => e.updated_parsed

/-- `LesAffairesRSS._extract_description`. -/
def extractDescription (e : RawEntry) : String :=
  match e.content with
  | some items => String.intercalate "\n" (items.map (fun v => v.getD ""))
  | none => e.summary.getD ""

/-- The entry loop of `get_latest`. -/
def laGo (cutoff : Int) : List RawEntry → Except String (List LAArticle)
  | [] => .ok []
  | e :: rest =>
    match getEntryDate e with
    | none => laGo cutoff rest
    | some published =>
      if published < cutoff then laGo cutoff rest
      else if isHttpUrl (e.link.getD "") then
        match laGo cutoff rest with
        | .error msg => .error msg
        | .ok arts => .ok ({ title := e.title.getD ""
                             url := e.link.getD ""
                             published := published
                             description := extractDescription e } :: arts)
      else .error "url is not a valid http url"

/-- `LesAffairesRSS.get_latest`: same structure as the MarketWatch
scraper, including the `hours or self.default_hours` window. -/
def get_latest (feedOf : String → List RawEntry) (now : Int)
    (default_hours : Int) (category : String) (hours : Option Int) :
    Except String (List LAArticle) :=
  if (categories.contains (pythonLower category)) = false then
    .error "ValueError: Unknown category"
  else
    let cutoff :=
      now - 3600 * MarketWatchRSS.effectiveHours hours default_hours
    match laGo cutoff (feedOf (pythonLower category)) with
    | .error msg => .error msg
    | .ok arts => .ok (sortDesc (fun a => a.published) arts)

end LesAffairesRSS

/-! ## Runner (`src/runner.py`) -/

namespace Runner

/-- A YouTube video dict after the runner attached the `channel` tag and
the `transcript` field. -/
structure TaggedVideo where
  meta       : YouTubeScraper.VideoMeta
  channel    : String
  transcript : String
deriving Repr, DecidableEq

/-- The aggregated report: generation timestamp, requested window, and
the two per-category entry lists (the `count` fields of the source are
the lengths of these lists). -/
structure Report where
  generated_at : Int
  hours        : Int
  anthropic    : List AnthropicScraper.AnthropicArticle
  youtube      : List TaggedVideo
deriving Repr, DecidableEq

/-- The configuration and all external effects of one run, passed in
explicitly: the clock, the runner options, the channel list from
`channels.json`, and the oracles for every network/library interaction. -/
structure Env where
  now               : Int
  hours             : Int
  fetchContent      : Bool
  fetchTranscripts  : Bool
  channels          : List String
  /-- HTTP fetch of a channel page (`requests.get` + `raise_for_status`). -/
  fetchHtml         : String → Except Unit String
  /-- Parsed RSS feed of a channel id (`feedparser.parse` of the feed URL). -/
  feedOf            : String → List RawEntry
  /-- The three parsed Anthropic feeds, in `_FEED_URLS` order. -/
  anthropicFeeds    : List (List RawEntry)
  /-- Docling conversion of an article URL. -/
  convert           : String → Except String String
  /-- `self._transcript_api.list(video_id)`. -/
  tlist             : String → Except YouTubeScraper.TranscriptError
                        YouTubeScraper.TranscriptList
  /-- `transcript.fetch()` for a track of the given video. -/
  tfetch            : String → YouTubeScraper.Track →
                        Except YouTubeScraper.TranscriptError (List String)

/-- The runner's `scraper.get_transcript(video["video_id"])` with the
scraper's default languages. -/
def getTranscriptFor (env : Env) (videoId : String) : Option String :=
  YouTubeScraper.get_transcript YouTubeScraper.DEFAULT_LANGUAGES
    (env.tlist videoId) (env.tfetch videoId)

/-- The per-video loop body of `_scrape_youtube`: tag the video with its
source channel and attach `transcript or ""`. -/
def tagAndEnrich (env : Env) (handle : String)
    (m : YouTubeScraper.VideoMeta) : TaggedVideo :=
  { meta := m
    channel := handle
    transcript :=
      if env.fetchTranscripts then (getTranscriptFor env m.video_id).getD ""
      else "" }

/-- The channel loop of `_scrape_youtube`: resolve each handle (skip on
`None`), fetch and validate its recent videos (a validation error
propagates and aborts the run), enrich and accumulate, and finally sort
everything by publish date descending. -/
def scrapeYoutubeGo (env : Env) :
    List String → List TaggedVideo → Except String (List TaggedVideo)
  | [], acc => .ok (sortDesc (fun v => v.meta.published_at) acc)
  | handle :: rest, acc =>
    match YouTubeScraper.get_channel_id env.fetchHtml handle with
    | none => scrapeYoutubeGo env rest acc
    | some cid =>
      match YouTubeScraper.get_latest_videos (env.feedOf cid) env.now
          env.hours with
      | .error msg => .error msg
      | .ok vids =>
        scrapeYoutubeGo env rest (acc ++ vids.map (tagAndEnrich env handle))

/-- `Runner._scrape_youtube` (its `videos` list). -/
def scrapeYoutube (env : Env) : Except String (List TaggedVideo) :=
  scrapeYoutubeGo env env.channels []

/-- `Runner.run`: scrape Anthropic, scrape YouTube, assemble the report. -/
def run (env : Env) : Except String Report :=
  match AnthropicScraper.fetch_articles env.anthropicFeeds env.now env.hours
      env.fetchContent env.convert with
  | .error msg => .error msg
  | .ok arts =>
    match scrapeYoutube env with
    | .error msg => .error msg
    | .ok vids =>
      .ok { generated_at := env.now
            hours := env.hours
            anthropic := arts
            youtube := vids }

end Runner

/-! ## Concrete run configurations used by witnesses and counterexamples -/

/-- A feed entry that two different channels both publish (same video id). -/
def entryDup : RawEntry :=
  { published_parsed := some 500000
    yt_videoid := some "vid1"
    title := some "Video One" }

/-- A recent, fully valid article/video entry. -/
def entryGood : RawEntry :=
  { published_parsed := some 499000
    yt_videoid := some "vidA"
    title := some "A"
    link := some "https://example.com/a" }

/-- A second recent entry with a distinct URL and video id. -/
def entryGood2 : RawEntry :=
  { published_parsed := some 498000
    yt_videoid := some "vidB"
    title := some "B"
    link := some "https://example.com/b" }

/-- Two channels whose feeds both contain `entryDup`. -/
def envDup : Runner.Env :=
  { now := 500000
    hours := 24
    fetchContent := false
    fetchTranscripts := false
    channels := ["UCaaaaaaaaaaaaaaaaaaaaaa", "UCbbbbbbbbbbbbbbbbbbbbbb"]
    fetchHtml := fun _ => .error ()
    feedOf := fun _ => [entryDup]
    anthropicFeeds := []
    convert := fun _ => .ok ""
    tlist := fun _ => .error .transcriptsDisabled
    tfetch := fun _ _ => .error .couldNotRetrieve }

/-- A small healthy run: one resolvable channel with two videos, two
Anthropic feeds with one article each, transcripts available in English. -/
def envRun : Runner.Env :=
  { now := 500000
    hours := 24
    fetchContent := false
    fetchTranscripts := true
    channels := ["UCaaaaaaaaaaaaaaaaaaaaaa"]
    fetchHtml := fun _ => .error ()
    feedOf := fun _ => [entryGood, entryGood2]
    anthropicFeeds := [[entryGood], [entryGood2]]
    convert := fun _ => .ok ""
    tlist := fun _ => .ok { manual := [{ lang := "en", segments := ["hi"] }]
                            generated := [] }
    tfetch := fun _ t => .ok t.segments }

/-- An environment whose network always fails, so no handle resolves. -/
def envSkip : Runner.Env :=
  { envRun with channels := ["@nobody"], feedOf := fun _ => [] }

/-- A transcript list with a single French auto-generated track, none of
whose languages are preferred. -/
def tlFrench : YouTubeScraper.TranscriptList :=
  { manual := []
    generated := [{ lang := "fr", segments := ["bonjour", "monde"] }] }

/-- The two tagged videos that `envDup` produces: the same video id
appears twice in the merged YouTube list. -/
def dupVideos : List Runner.TaggedVideo :=
  [{ meta := { title := "Video One"
               video_id := "vid1"
               url := "https://www.youtube.com/watch?v=vid1"
               published_at := 500000
               description := "" }
     channel := "UCaaaaaaaaaaaaaaaaaaaaaa"
     transcript := "" },
   { meta := { title := "Video One"
               video_id := "vid1"
               url := "https://www.youtube.com/watch?v=vid1"
               published_at := 500000
               description := "" }
     channel := "UCbbbbbbbbbbbbbbbbbbbbbb"
     transcript := "" }]

/-- The articles and videos of the report produced by `envRun`. -/
def artRunA : AnthropicScraper.AnthropicArticle :=
  { title := "A"
    description := ""
    url := "https://example.com/a"
    guid := "https://example.com/a"
    published_at := 499000
    category := none
    content := "" }

def artRunB : AnthropicScraper.AnthropicArticle :=
  { title := "B"
    description := ""
    url := "https://example.com/b"
    guid := "https://example.com/b"
    published_at := 498000
    category := none
    content := "" }

def vidMetaA : YouTubeScraper.VideoMeta :=
  { title := "A"
    video_id := "vidA"
    url := "https://www.youtube.com/watch?v=vidA"
    published_at := 499000
    description := "" }

def vidMetaB : YouTubeScraper.VideoMeta :=
  { title := "B"
    video_id := "vidB"
    url := "https://www.youtube.com/watch?v=vidB"
    published_at := 498000
    description := "" }

/-- The report `Runner.run envRun` produces. -/
def repRun : Runner.Report :=
  { generated_at := 500000
    hours := 24
    anthropic := [artRunA, artRunB]
    youtube := [{ meta := vidMetaA
                  channel := "UCaaaaaaaaaaaaaaaaaaaaaa"
                  transcript := "hi" },
                { meta := vidMetaB
                  channel := "UCaaaaaaaaaaaaaaaaaaaaaa"
                  transcript := "hi" }] }

/-- The MarketWatch article built from `entryGood`. -/
def mwArtA : MarketWatchRSS.MWArticle :=
  { title := "A"
    url := "https://example.com/a"
    published := 499000
    content := "" }

/-! ## Helper lemmas -/

theorem dropWhile_eq_self_of_all {p : Char → Bool} :
    ∀ {l : List Char}, (∀ c ∈ l, p c = false) → l.dropWhile p = l := by
  intro l h
  cases l with
  | nil => rfl
  | cons c cs => simp [List.dropWhile, h c (List.mem_cons_self c cs)]

theorem pythonStrip_eq_self {s : String}
    (h : ∀ c ∈ s.data, c.isWhitespace = false) : pythonStrip s = s := by
  obtain ⟨data⟩ := s
  simp only [pythonStrip] at *
  rw [dropWhile_eq_self_of_all h]
  rw [dropWhile_eq_self_of_all (by
    intro c hc
    exact h c (List.mem_reverse.1 hc))]
  simp

theorem isIdChar_not_ws {c : Char} (h : YouTubeScraper.isIdChar c = true) :
    c.isWhitespace = false := by
  cases hw : c.isWhitespace with
  | false => rfl
  | true =>
    simp only [Char.isWhitespace, Bool.or_eq_true, decide_eq_true_eq] at hw
    have : c = ' ' ∨ c = '\t' ∨ c = '\r' ∨ c = '\n' := by tauto
    rcases this with rfl | rfl | rfl | rfl <;>
      exact absurd h (by decide)

theorem pythonStrip_channelId {s : String}
    (h : YouTubeScraper.isChannelId s = true) : pythonStrip s = s := by
  apply pythonStrip_eq_self
  intro c hc
  simp only [YouTubeScraper.isChannelId] at h
  rcases hd : s.data with _ | ⟨c1, _ | ⟨c2, rest⟩⟩ <;> rw [hd] at h hc
  · simp at hc
  · simp at h
  · simp only [Bool.and_eq_true, decide_eq_true_eq, List.all_eq_true] at h
    obtain ⟨⟨⟨h1, h2⟩, _⟩, hall⟩ := h
    subst h1; subst h2
    rcases List.mem_cons.1 hc with rfl | hc
    · decide
    · rcases List.mem_cons.1 hc with rfl | hc
      · decide
      · exact isIdChar_not_ws (hall c hc)

/-! ## Claims -/

/-- C9: an input to `get_channel_id` that already fully matches the
`UC` + 22-character channel-id pattern is returned unchanged, for every
possible behaviour of the network fetch — in particular the result does
not depend on the fetch oracle at all, so no network call is consulted. -/
theorem claim_C9_identifier_passthrough (name : String)
    (h : YouTubeScraper.isChannelId name = true) :
    ∀ fetch, YouTubeScraper.get_channel_id fetch name = some name := by
  intro fetch
  unfold YouTubeScraper.get_channel_id
  rw [pythonStrip_channelId h, if_pos h]

theorem claim_C9_witness :
    YouTubeScraper.isChannelId "UCX6OQ3DkcsbYNE6H8uQQuVA" = true ∧
    YouTubeScraper.get_channel_id (fun _ => Except.error ())
      "UCX6OQ3DkcsbYNE6H8uQQuVA" = some "UCX6OQ3DkcsbYNE6H8uQQuVA" :=
  ⟨by decide,
   claim_C9_identifier_passthrough "UCX6OQ3DkcsbYNE6H8uQQuVA" (by decide)
     (fun _ => Except.error ())⟩

/-- C10: in both RSS scrapers' `get_latest`, the effective window is
`hours or default`: an explicit `hours=0` is falsy in Python and
therefore selects the constructor default (same result as passing
nothing), while any non-zero `hours` overrides the default completely
(the result no longer depends on the default at all). -/
theorem claim_C10_zero_hours_uses_default :
    (∀ feedOf now d cat,
      MarketWatchRSS.get_latest feedOf now d cat (some 0) =
        MarketWatchRSS.get_latest feedOf now d cat none) ∧
    (∀ feedOf now d d' cat (h : Int), h ≠ 0 →
      MarketWatchRSS.get_latest feedOf now d cat (some h) =
        MarketWatchRSS.get_latest feedOf now d' cat (some h)) ∧
    (∀ feedOf now d cat,
      LesAffairesRSS.get_latest feedOf now d cat (some 0) =
        LesAffairesRSS.get_latest feedOf now d cat none) ∧
    (∀ feedOf now d d' cat (h : Int), h ≠ 0 →
      LesAffairesRSS.get_latest feedOf now d cat (some h) =
        LesAffairesRSS.get_latest feedOf now d' cat (some h)) := by
  refine ⟨?_, ?_, ?_, ?_⟩
  · intro feedOf now d cat
    simp [MarketWatchRSS.get_latest, MarketWatchRSS.effectiveHours]
  · intro feedOf now d d' cat h hh
    simp [MarketWatchRSS.get_latest, MarketWatchRSS.effectiveHours, hh]
  · intro feedOf now d cat
    simp [LesAffairesRSS.get_latest, MarketWatchRSS.effectiveHours]
  · intro feedOf now d d' cat h hh
    simp [LesAffairesRSS.get_latest, MarketWatchRSS.effectiveHours, hh]

theorem claim_C10_witness :
    (MarketWatchRSS.get_latest (fun _ => []) 1000 24 "topstories" (some 0) =
      MarketWatchRSS.get_latest (fun _ => []) 1000 24 "topstories" none) ∧
    (MarketWatchRSS.get_latest (fun _ => []) 1000 24 "topstories" (some 5) =
      MarketWatchRSS.get_latest (fun _ => []) 1000 7 "topstories" (some 5)) ∧
    (LesAffairesRSS.get_latest (fun _ => []) 1000 24 "techno" (some 0) =
      LesAffairesRSS.get_latest (fun _ => []) 1000 24 "techno" none) ∧
    (LesAffairesRSS.get_latest (fun _ => []) 1000 24 "techno" (some 5) =
      LesAffairesRSS.get_latest (fun _ => []) 1000 7 "techno" (some 5)) :=
  ⟨claim_C10_zero_hours_uses_default.1 _ 1000 24 "topstories",
   claim_C10_zero_hours_uses_default.2.1 _ 1000 24 7 "topstories" 5
     (by decide),
   claim_C10_zero_hours_uses_default.2.2.1 _ 1000 24 "techno",
   claim_C10_zero_hours_uses_default.2.2.2 _ 1000 24 7 "techno" 5
     (by decide)⟩

/-- C7: every enrichment failure degrades to empty text without losing
the item or aborting:
(1) every transcript-API listing error (disabled / unavailable / blocked /
generic) makes `get_transcript` return `None`;
(2) a failing `fetch()` of the selected track also returns `None`;
(3) a failing docling conversion makes `get_article_content` return `""`;
(4) in the runner, a video whose transcript came back `None` is kept
unchanged with `transcript = ""`;
(5) the enrichment pass never changes how many videos there are;
(6) an in-window Anthropic entry whose body conversion fails is still
appended to the results, with `content = ""`, and processing of the
remaining entries continues. -/
theorem claim_C7_enrichment_failure_nonfatal :
    (∀ langs fetch err, YouTubeScraper.get_transcript langs
        (Except.error err) fetch = none) ∧
    (∀ langs tl fetch t err,
      YouTubeScraper.selectTranscript langs tl = some t →
      fetch t = Except.error err →
      YouTubeScraper.get_transcript langs (Except.ok tl) fetch = none) ∧
    (∀ convert url err, convert url = Except.error err →
      AnthropicScraper.get_article_content convert url = "") ∧
    (∀ env handle m, Runner.getTranscriptFor env m.video_id = none →
      (Runner.tagAndEnrich env handle m).transcript = "" ∧
      (Runner.tagAndEnrich env handle m).meta = m) ∧
    (∀ env handle (vids : List YouTubeScraper.VideoMeta),
      (vids.map (Runner.tagAndEnrich env handle)).length = vids.length) ∧
    (∀ now cutoff convert (e : RawEntry) rest seen err,
      cutoff ≤ e.published_parsed.getD now →
      seen.contains (e.link.getD "") = false →
      isHttpUrl (e.link.getD "") = true →
      convert (e.link.getD "") = Except.error err →
      AnthropicScraper.anthropicGo now cutoff true convert (e :: rest) seen =
        (AnthropicScraper.anthropicGo now cutoff true convert rest
            (e.link.getD "" :: seen)).map
          (fun arts =>
            AnthropicScraper.mkArticle e (e.published_parsed.getD now) ""
              :: arts)) := by
  refine ⟨?_, ?_, ?_, ?_, ?_, ?_⟩
  · intro langs fetch err
    rfl
  · intro langs tl fetch t err hsel hf
    simp [YouTubeScraper.get_transcript, hsel, hf]
  · intro convert url err h
    simp [AnthropicScraper.get_article_content, h]
  · intro env handle m h
    constructor
    · simp [Runner.tagAndEnrich, h]
    · rfl
  · intro env handle vids
    simp
  · intro now cutoff convert e rest seen err hcut hseen hurl hconv
    simp only [AnthropicScraper.anthropicGo]
    rw [if_neg (not_lt.2 hcut), hseen]
    simp only [Bool.false_eq_true, if_false, hurl, if_true,
      AnthropicScraper.get_article_content, hconv]
    cases AnthropicScraper.anthropicGo now cutoff true convert rest
        (e.link.getD "" :: seen) <;> rfl

theorem claim_C7_witness :
    (YouTubeScraper.get_transcript ["en"]
      (Except.error YouTubeScraper.TranscriptError.requestBlocked)
      (fun t => Except.ok t.segments) = none) ∧
    (YouTubeScraper.get_transcript ["en"]
      (Except.ok { manual := [{ lang := "en", segments := ["hello"] }]
                   generated := [] })
      (fun _ => Except.error
        YouTubeScraper.TranscriptError.couldNotRetrieve) = none) ∧
    (AnthropicScraper.get_article_content (fun _ => Except.error "boom")
      "https://example.com/a" = "") ∧
    ((Runner.tagAndEnrich envDup "UCaaaaaaaaaaaaaaaaaaaaaa"
        (YouTubeScraper.mkVideoMeta entryGood 499000)).transcript = "" ∧
      (Runner.tagAndEnrich envDup "UCaaaaaaaaaaaaaaaaaaaaaa"
        (YouTubeScraper.mkVideoMeta entryGood 499000)).meta =
        YouTubeScraper.mkVideoMeta entryGood 499000) ∧
    (AnthropicScraper.anthropicGo 500000 0 true (fun _ => Except.error "boom")
        [entryGood] [] =
      (AnthropicScraper.anthropicGo 500000 0 true
          (fun _ => Except.error "boom") [] ["https://example.com/a"]).map
        (fun arts =>
          AnthropicScraper.mkArticle entryGood 499000 "" :: arts)) := by
  refine ⟨claim_C7_enrichment_failure_nonfatal.1 ["en"] _ _,
    claim_C7_enrichment_failure_nonfatal.2.1 ["en"] _ _
      { lang := "en", segments := ["hello"] }
      YouTubeScraper.TranscriptError.couldNotRetrieve (by rfl) (by rfl),
    claim_C7_enrichment_failure_nonfatal.2.2.1 _ "https://example.com/a"
      "boom" (by rfl),
    claim_C7_enrichment_failure_nonfatal.2.2.2.1 envDup
      "UCaaaaaaaaaaaaaaaaaaaaaa" (YouTubeScraper.mkVideoMeta entryGood 499000)
      (by rfl),
    ?_⟩
  have h := claim_C7_enrichment_failure_nonfatal.2.2.2.2.2 500000 0
    (fun _ => Except.error "boom") entryGood [] [] "boom"
    (by decide) (by decide) (by decide) (by rfl)
  simpa [entryGood] using h

/-- C8: failed identity resolution is a silent skip:
(1) when the stripped input is not already a channel id and the page
fetch fails, `get_channel_id` returns `None` (it is a total function —
no exception escapes);
(2) when the fetch succeeds but no extraction strategy matches the HTML,
`get_channel_id` returns `None`;
(3) the runner's channel loop treats a `None` resolution as a pure skip:
the run continues exactly as if the handle were absent. -/
theorem claim_C8_unresolved_handle_skipped :
    (∀ (fetch : String → Except Unit String) name err,
      YouTubeScraper.isChannelId (pythonStrip name) = false →
      fetch (YouTubeScraper.buildChannelUrl (pythonStrip name)) =
        Except.error err →
      YouTubeScraper.get_channel_id fetch name = none) ∧
    (∀ (fetch : String → Except Unit String) name html,
      YouTubeScraper.isChannelId (pythonStrip name) = false →
      fetch (YouTubeScraper.buildChannelUrl (pythonStrip name)) =
        Except.ok html →
      YouTubeScraper.extractChannelId html = none →
      YouTubeScraper.get_channel_id fetch name = none) ∧
    (∀ env handle rest acc,
      YouTubeScraper.get_channel_id env.fetchHtml handle = none →
      Runner.scrapeYoutubeGo env (handle :: rest) acc =
        Runner.scrapeYoutubeGo env rest acc) := by
  refine ⟨?_, ?_, ?_⟩
  · intro fetch name err hid hf
    simp [YouTubeScraper.get_channel_id, hid, hf]
  · intro fetch name html hid hf hx
    simp [YouTubeScraper.get_channel_id, hid, hf, hx]
  · intro env handle rest acc h
    simp [Runner.scrapeYoutubeGo, h]

theorem claim_C8_witness :
    (YouTubeScraper.get_channel_id (fun _ => Except.error ()) "@nobody" =
      none) ∧
    (YouTubeScraper.get_channel_id (fun _ => Except.ok "<html></html>")
      "@nobody" = none) ∧
    (Runner.scrapeYoutubeGo envSkip ["@nobody"] [] =
      Runner.scrapeYoutubeGo envSkip [] []) := by
  refine ⟨claim_C8_unresolved_handle_skipped.1 _ "@nobody" () (by decide)
      (by rfl),
    claim_C8_unresolved_handle_skipped.2.1 _ "@nobody" "<html></html>"
      (by decide) (by rfl) (by decide),
    claim_C8_unresolved_handle_skipped.2.2 envSkip "@nobody" [] []
      (claim_C8_unresolved_handle_skipped.1 _ "@nobody" () (by decide)
        (by rfl))⟩

theorem findInDict_some {langs : List String}
    {d : List YouTubeScraper.Track} {t : YouTubeScraper.Track}
    (h : YouTubeScraper.findInDict langs d = some t) :
    t ∈ d ∧ t.lang ∈ langs := by
  induction langs with
  | nil => simp [YouTubeScraper.findInDict] at h
  | cons l ls ih =>
    simp only [YouTubeScraper.findInDict, List.findSome?] at h
    cases hf : d.find? (fun x => x.lang == l) with
    | none =>
      rw [hf] at h
      have := ih (by simpa [YouTubeScraper.findInDict] using h)
      exact ⟨this.1, List.mem_cons_of_mem _ this.2⟩
    | some t' =>
      rw [hf] at h
      cases h
      refine ⟨List.mem_of_find?_eq_some hf, ?_⟩
      have := List.find?_some hf
      simp only [beq_iff_eq] at this
      simp [this]

theorem findInDict_none {langs : List String}
    {d : List YouTubeScraper.Track}
    (h : YouTubeScraper.findInDict langs d = none) :
    ∀ x ∈ d, x.lang ∉ langs := by
  induction langs with
  | nil => simp
  | cons l ls ih =>
    intro x hx
    simp only [YouTubeScraper.findInDict, List.findSome?] at h
    cases hf : d.find? (fun y => y.lang == l) with
    | some t' => rw [hf] at h; cases h
    | none =>
      rw [hf] at h
      have h1 := List.find?_eq_none.1 hf x hx
      simp only [beq_iff_eq] at h1
      have h2 := ih (by simpa [YouTubeScraper.findInDict] using h) x hx
      simp [h1, h2]

theorem find_self_lang (t : YouTubeScraper.Track)
    (rest : List YouTubeScraper.Track) :
    (t :: rest).find? (fun x => x.lang == t.lang) = some t := by
  simp [List.find?]

theorem fallback_some {tl : YouTubeScraper.TranscriptList}
    (h : tl.manual ++ tl.generated ≠ []) :
    ∃ t, YouTubeScraper.findTranscriptBoth
        (YouTubeScraper.listCodes tl) tl = some t ∧
      t ∈ tl.manual ++ tl.generated := by
  cases hm : tl.manual with
  | cons m ms =>
    refine ⟨m, ?_, by simp [hm]⟩
    simp only [YouTubeScraper.findTranscriptBoth, YouTubeScraper.listCodes,
      hm, List.map_cons, List.cons_append, List.findSome?]
    rw [find_self_lang]
  | nil =>
    cases hg : tl.generated with
    | nil => exact absurd (by simp [hm, hg]) h
    | cons g gs =>
      refine ⟨g, ?_, by simp [hm, hg]⟩
      simp only [YouTubeScraper.findTranscriptBoth, YouTubeScraper.listCodes,
        hm, hg, List.map_nil, List.map_cons, List.nil_append, List.findSome?]
      rw [find_self_lang]
      simp

/-- C6: on a video whose transcript list is non-empty (and whose track
fetch succeeds, returning the track's snippets), `get_transcript`
returns the space-joined segments of a track selected by priority:
a manually created transcript in a preferred language when one exists,
else an auto-generated transcript in a preferred language when one
exists, else some available track. -/
theorem claim_C6_transcript_priority (langs : List String)
    (tl : YouTubeScraper.TranscriptList)
    (fetch : YouTubeScraper.Track →
      Except YouTubeScraper.TranscriptError (List String))
    (hne : tl.manual ++ tl.generated ≠ [])
    (hf : ∀ t, fetch t = Except.ok t.segments) :
    ∃ t, t ∈ tl.manual ++ tl.generated ∧
      YouTubeScraper.get_transcript langs (Except.ok tl) fetch =
        some (String.intercalate " " t.segments) ∧
      ((∃ m ∈ tl.manual, m.lang ∈ langs) →
        t ∈ tl.manual ∧ t.lang ∈ langs) ∧
      ((¬ ∃ m ∈ tl.manual, m.lang ∈ langs) →
        (∃ g ∈ tl.generated, g.lang ∈ langs) →
        t ∈ tl.generated ∧ t.lang ∈ langs) := by
  cases hm : YouTubeScraper.findInDict langs tl.manual with
  | some m =>
    obtain ⟨hmem, hlang⟩ := findInDict_some hm
    refine ⟨m, List.mem_append_left _ hmem, ?_, fun _ => ⟨hmem, hlang⟩,
      fun hno _ => absurd ⟨m, hmem, hlang⟩ hno⟩
    simp [YouTubeScraper.get_transcript, YouTubeScraper.selectTranscript,
      hm, hf m]
  | none =>
    cases hg : YouTubeScraper.findInDict langs tl.generated with
    | some g =>
      obtain ⟨hmem, hlang⟩ := findInDict_some hg
      refine ⟨g, List.mem_append_right _ hmem, ?_, ?_,
        fun _ _ => ⟨hmem, hlang⟩⟩
      · simp [YouTubeScraper.get_transcript, YouTubeScraper.selectTranscript,
          hm, hg, hf g]
      · rintro ⟨m, hmm, hml⟩
        exact absurd hml (findInDict_none hm m hmm)
    | none =>
      obtain ⟨t, hft, hmem⟩ := fallback_some hne
      refine ⟨t, hmem, ?_, ?_, ?_⟩
      · simp [YouTubeScraper.get_transcript, YouTubeScraper.selectTranscript,
          hm, hg, hft, hf t]
      · rintro ⟨m, hmm, hml⟩
        exact absurd hml (findInDict_none hm m hmm)
      · rintro _ ⟨g, hgm, hgl⟩
        exact absurd hgl (findInDict_none hg g hgm)

theorem claim_C6_witness :
    ∃ t, t ∈ tlFrench.manual ++ tlFrench.generated ∧
      YouTubeScraper.get_transcript YouTubeScraper.DEFAULT_LANGUAGES
        (Except.ok tlFrench) (fun t => Except.ok t.segments) =
          some (String.intercalate " " t.segments) ∧
      ((∃ m ∈ tlFrench.manual,
          m.lang ∈ YouTubeScraper.DEFAULT_LANGUAGES) →
        t ∈ tlFrench.manual ∧
          t.lang ∈ YouTubeScraper.DEFAULT_LANGUAGES) ∧
      ((¬ ∃ m ∈ tlFrench.manual,
          m.lang ∈ YouTubeScraper.DEFAULT_LANGUAGES) →
        (∃ g ∈ tlFrench.generated,
          g.lang ∈ YouTubeScraper.DEFAULT_LANGUAGES) →
        t ∈ tlFrench.generated ∧
          t.lang ∈ YouTubeScraper.DEFAULT_LANGUAGES) :=
  claim_C6_transcript_priority YouTubeScraper.DEFAULT_LANGUAGES tlFrench
    (fun t => Except.ok t.segments) (by decide) (fun _ => rfl)

/-- C4 counterexample: the claim says an item whose video identifier is
missing is dropped without being fatal, but on a feed with one in-window
entry that lacks `yt_videoid`, `get_latest_videos` raises the pydantic
validation error instead of returning the remaining items. -/
theorem claim_C4_counterexample :
    YouTubeScraper.get_latest_videos
      [{ published_parsed := some 1000 }, entryGood] 1000 24 =
      Except.error "video_id must not be empty" := by
  rfl

/-- C4 (amended): a missing timestamp drops only that item in the
YouTube adapter (1); but an in-window YouTube item whose `yt_videoid`
strips to the empty string aborts the whole call with a validation
error (2); the Anthropic adapter does not drop a timestamp-less item at
all — it processes it exactly as if `published_parsed` were the current
time (3); and an in-window Anthropic item without a `link` likewise
aborts the call through the `AnyHttpUrl` validation (4). -/
theorem claim_C4_parse_failures :
    (∀ now cutoff (e : RawEntry) rest, YouTubeScraper.parseDate e = none →
      YouTubeScraper.ytGo now cutoff (e :: rest) =
        YouTubeScraper.ytGo now cutoff rest) ∧
    (∀ now cutoff (e : RawEntry) rest t, YouTubeScraper.parseDate e = some t →
      cutoff ≤ t → pythonStrip (e.yt_videoid.getD "") = "" →
      YouTubeScraper.ytGo now cutoff (e :: rest) =
        Except.error "video_id must not be empty") ∧
    (∀ now cutoff wc cv (e : RawEntry) rest seen, e.published_parsed = none →
      AnthropicScraper.anthropicGo now cutoff wc cv (e :: rest) seen =
        AnthropicScraper.anthropicGo now cutoff wc cv
          ({ e with published_parsed := some now } :: rest) seen) ∧
    (∀ now cutoff wc cv (e : RawEntry) rest seen, e.link = none →
      cutoff ≤ e.published_parsed.getD now →
      seen.contains "" = false →
      AnthropicScraper.anthropicGo now cutoff wc cv (e :: rest) seen =
        Except.error "url is not a valid http url") := by
  refine ⟨?_, ?_, ?_, ?_⟩
  · intro now cutoff e rest h
    simp [YouTubeScraper.ytGo, h]
  · intro now cutoff e rest t hp hc hv
    simp [YouTubeScraper.ytGo, hp, hv, not_lt.2 hc]
  · intro now cutoff wc cv e rest seen h
    obtain ⟨pp, up, vid, ti, md, su, li, de, idf, tg, co⟩ := e
    simp only at h
    subst h
    simp [AnthropicScraper.anthropicGo, AnthropicScraper.mkArticle]
  · intro now cutoff wc cv e rest seen hl hc hs
    simp only [AnthropicScraper.anthropicGo, hl, Option.getD_none]
    rw [if_neg (not_lt.2 hc), hs]
    simp [isHttpUrl, pythonStartsWith, startsWithChars]

theorem claim_C4_witness :
    (YouTubeScraper.ytGo 1000 0 [{ summary := some "no dates" }, entryGood] =
      YouTubeScraper.ytGo 1000 0 [entryGood]) ∧
    (YouTubeScraper.ytGo 1000 0 [{ published_parsed := some 1000 }] =
      Except.error "video_id must not be empty") ∧
    (AnthropicScraper.anthropicGo 1000 0 false (fun _ => Except.ok "")
        [{ link := some "https://example.com/a" }] [] =
      AnthropicScraper.anthropicGo 1000 0 false (fun _ => Except.ok "")
        [{ link := some "https://example.com/a"
           published_parsed := some 1000 }] []) ∧
    (AnthropicScraper.anthropicGo 1000 0 false (fun _ => Except.ok "")
        [{ published_parsed := some 500 }] [] =
      Except.error "url is not a valid http url") := by
  refine ⟨claim_C4_parse_failures.1 1000 0 _ [entryGood] (by decide),
    claim_C4_parse_failures.2.1 1000 0 _ [] 1000 (by decide) (by decide)
      (by decide),
    ?_, claim_C4_parse_failures.2.2.2 1000 0 false _ _ [] [] (by decide)
      (by decide) (by decide)⟩
  exact claim_C4_parse_failures.2.2.1 1000 0 false (fun _ => Except.ok "")
    { link := some "https://example.com/a" } [] [] (by decide)

/-- C5 counterexample: the Anthropic adapter neither consults the
`updated` field nor drops the item when `published` is missing: an entry
with only `updated_parsed = 5` is kept with `published_at = now = 100`
(the claim predicts `published_at = 5`). -/
theorem claim_C5_counterexample :
    AnthropicScraper.fetch_articles
      [[{ updated_parsed := some 5, link := some "https://example.com/x" }]]
      100 24 false (fun _ => Except.ok "") =
      Except.ok [{ title := ""
                   description := ""
                   url := "https://example.com/x"
                   guid := "https://example.com/x"
                   published_at := 100
                   category := none
                   content := "" }] ∧
    (100 : Int) ≠ 5 := by
  constructor
  · rfl
  · decide

/-- C5 (amended): the YouTube and generic-RSS adapters try
`published_parsed` then `updated_parsed`, first present field wins
(1)–(3), and drop the item when neither parses (4); the Anthropic
adapter consults only `published_parsed` and, when it is absent,
substitutes the current run time instead of dropping the item (5). -/
theorem claim_C5_timestamp_candidates :
    (∀ (e : RawEntry) t, e.published_parsed = some t →
      YouTubeScraper.parseDate e = some t) ∧
    (∀ (e : RawEntry), e.published_parsed = none →
      YouTubeScraper.parseDate e = e.updated_parsed) ∧
    (∀ (e : RawEntry), MarketWatchRSS.getEntryDate e =
        YouTubeScraper.parseDate e ∧
      LesAffairesRSS.getEntryDate e = YouTubeScraper.parseDate e) ∧
    (∀ now cutoff (e : RawEntry) rest, YouTubeScraper.parseDate e = none →
      YouTubeScraper.ytGo now cutoff (e :: rest) =
        YouTubeScraper.ytGo now cutoff rest) ∧
    (∀ now cutoff wc cv (e : RawEntry) rest seen, e.published_parsed = none →
      AnthropicScraper.anthropicGo now cutoff wc cv (e :: rest) seen =
        AnthropicScraper.anthropicGo now cutoff wc cv
          ({ e with published_parsed := some now } :: rest) seen) := by
  refine ⟨?_, ?_, ?_, ?_, ?_⟩
  · intro e t h
    simp [YouTubeScraper.parseDate, h]
  · intro e h
    simp [YouTubeScraper.parseDate, h]
  · intro e
    exact ⟨rfl, rfl⟩
  · intro now cutoff e rest h
    simp [YouTubeScraper.ytGo, h]
  · intro now cutoff wc cv e rest seen h
    obtain ⟨pp, up, vid, ti, md, su, li, de, idf, tg, co⟩ := e
    simp only at h
    subst h
    simp [AnthropicScraper.anthropicGo, AnthropicScraper.mkArticle]

theorem claim_C5_witness :
    (YouTubeScraper.parseDate
      { published_parsed := some 7, updated_parsed := some 9 } = some 7) ∧
    (YouTubeScraper.parseDate { updated_parsed := some 9 } = some 9) ∧
    (MarketWatchRSS.getEntryDate { updated_parsed := some 9 } =
        YouTubeScraper.parseDate { updated_parsed := some 9 } ∧
      LesAffairesRSS.getEntryDate { updated_parsed := some 9 } =
        YouTubeScraper.parseDate { updated_parsed := some 9 }) ∧
    (YouTubeScraper.ytGo 1000 0 [{ title := some "undated" }] =
      YouTubeScraper.ytGo 1000 0 []) ∧
    (AnthropicScraper.anthropicGo 1000 0 false (fun _ => Except.ok "")
        [{ title := some "undated" }] [] =
      AnthropicScraper.anthropicGo 1000 0 false (fun _ => Except.ok "")
        [{ title := some "undated"
           published_parsed := some 1000 }] []) := by
  refine ⟨claim_C5_timestamp_candidates.1 _ 7 (by decide),
    by rw [claim_C5_timestamp_candidates.2.1 _ (by decide)],
    claim_C5_timestamp_candidates.2.2.1 _,
    claim_C5_timestamp_candidates.2.2.2.1 1000 0 _ [] (by decide),
    ?_⟩
  exact claim_C5_timestamp_candidates.2.2.2.2 1000 0 false
    (fun _ => Except.ok "") { title := some "undated" } [] [] (by decide)

theorem ytGo_mem {now cutoff : Int} :
    ∀ {entries : List RawEntry} {vids : List YouTubeScraper.VideoMeta},
      YouTubeScraper.ytGo now cutoff entries = Except.ok vids →
      ∀ m ∈ vids, cutoff ≤ m.published_at := by
  intro entries
  induction entries with
  | nil =>
    intro vids h m hm
    simp only [YouTubeScraper.ytGo] at h
    cases h
    simp at hm
  | cons e rest ih =>
    intro vids h m hm
    simp only [YouTubeScraper.ytGo] at h
    cases hp : YouTubeScraper.parseDate e with
    | none =>
      simp only [hp] at h
      exact ih h m hm
    | some published =>
      simp only [hp] at h
      by_cases hlt : published < cutoff
      · simp only [if_pos hlt] at h
        exact ih h m hm
      · simp only [if_neg hlt] at h
        by_cases hv : pythonStrip (e.yt_videoid.getD "") = ""
        · simp only [if_pos hv] at h
          cases h
        · simp only [if_neg hv] at h
          cases hr : YouTubeScraper.ytGo now cutoff rest with
          | error msg => simp only [hr] at h; cases h
          | ok vids2 =>
            simp only [hr] at h
            cases h
            rcases List.mem_cons.1 hm with rfl | h2
            · simp only [YouTubeScraper.mkVideoMeta]
              omega
            · exact ih hr m h2

theorem get_latest_videos_mem {feed : List RawEntry} {now hours : Int}
    {vids : List YouTubeScraper.VideoMeta}
    (h : YouTubeScraper.get_latest_videos feed now hours = Except.ok vids) :
    ∀ m ∈ vids, now - 3600 * hours ≤ m.published_at := by
  intro m hm
  simp only [YouTubeScraper.get_latest_videos] at h
  cases hr : YouTubeScraper.ytGo now (now - 3600 * hours) feed with
  | error msg => simp only [hr] at h; cases h
  | ok vids2 =>
    simp only [hr] at h
    cases h
    exact ytGo_mem hr m (mem_sortDesc.1 hm)

theorem get_latest_videos_sorted {feed : List RawEntry} {now hours : Int}
    {vids : List YouTubeScraper.VideoMeta}
    (h : YouTubeScraper.get_latest_videos feed now hours = Except.ok vids) :
    List.Sorted (fun a b => b.published_at ≤ a.published_at) vids := by
  simp only [YouTubeScraper.get_latest_videos] at h
  cases hr : YouTubeScraper.ytGo now (now - 3600 * hours) feed with
  | error msg => simp only [hr] at h; cases h
  | ok vids2 =>
    simp only [hr] at h
    cases h
    exact sorted_sortDesc _ vids2

theorem anthGo_mem {now cutoff : Int} {wc : Bool}
    {cv : String → Except String String} :
    ∀ {entries : List RawEntry} {seen : List String}
      {arts : List AnthropicScraper.AnthropicArticle},
      AnthropicScraper.anthropicGo now cutoff wc cv entries seen =
        Except.ok arts →
      ∀ a ∈ arts, cutoff ≤ a.published_at := by
  intro entries
  induction entries with
  | nil =>
    intro seen arts h a ha
    simp only [AnthropicScraper.anthropicGo] at h
    cases h
    simp at ha
  | cons e rest ih =>
    intro seen arts h a ha
    simp only [AnthropicScraper.anthropicGo] at h
    by_cases hlt : e.published_parsed.getD now < cutoff
    · simp only [if_pos hlt] at h
      exact ih h a ha
    · simp only [if_neg hlt] at h
      by_cases hc : seen.contains (e.link.getD "") = true
      · simp only [hc, if_true] at h
        exact ih h a ha
      · simp only [hc, Bool.false_eq_true, if_false] at h
        by_cases hu : isHttpUrl (e.link.getD "") = true
        · simp only [hu, if_true] at h
          cases hr : AnthropicScraper.anthropicGo now cutoff wc cv rest
              (e.link.getD "" :: seen) with
          | error msg => simp only [hr] at h; cases h
          | ok arts2 =>
            simp only [hr] at h
            cases h
            rcases List.mem_cons.1 ha with rfl | h2
            · simp only [AnthropicScraper.mkArticle]
              omega
            · exact ih hr a h2
        · simp only [hu, Bool.false_eq_true, if_false] at h
          cases h

theorem anthGo_urls {now cutoff : Int} {wc : Bool}
    {cv : String → Except String String} :
    ∀ {entries : List RawEntry} {seen : List String}
      {arts : List AnthropicScraper.AnthropicArticle},
      AnthropicScraper.anthropicGo now cutoff wc cv entries seen =
        Except.ok arts →
      (∀ a ∈ arts, seen.contains a.url = false) ∧
        (arts.map (fun a => a.url)).Nodup := by
  intro entries
  induction entries with
  | nil =>
    intro seen arts h
    simp only [AnthropicScraper.anthropicGo] at h
    cases h
    simp
  | cons e rest ih =>
    intro seen arts h
    simp only [AnthropicScraper.anthropicGo] at h
    by_cases hlt : e.published_parsed.getD now < cutoff
    · simp only [if_pos hlt] at h
      exact ih h
    · simp only [if_neg hlt] at h
      by_cases hc : seen.contains (e.link.getD "") = true
      · simp only [hc, if_true] at h
        exact ih h
      · simp only [hc, Bool.false_eq_true, if_false] at h
        by_cases hu : isHttpUrl (e.link.getD "") = true
        · simp only [hu, if_true] at h
          cases hr : AnthropicScraper.anthropicGo now cutoff wc cv rest
              (e.link.getD "" :: seen) with
          | error msg => simp only [hr] at h; cases h
          | ok arts2 =>
            simp only [hr] at h
            cases h
            obtain ⟨ih1, ih2⟩ := ih hr
            have hcF : seen.contains (e.link.getD "") = false :=
              Bool.not_eq_true _ ▸ (by simpa using hc)
            have hurl : (AnthropicScraper.mkArticle e
                (e.published_parsed.getD now)
                (if wc = true then
                  AnthropicScraper.get_article_content cv (e.link.getD "")
                 else "")).url = e.link.getD "" := rfl
            constructor
            · intro a ha
              rcases List.mem_cons.1 ha with rfl | h2
              · rw [hurl]
                exact hcF
              · have := ih1 a h2
                simp only [List.contains_cons, Bool.or_eq_false_iff] at this
                exact this.2
            · rw [List.map_cons, List.nodup_cons]
              refine ⟨?_, ih2⟩
              rw [hurl]
              intro hmem
              obtain ⟨a, ha, hae⟩ := List.mem_map.1 hmem
              have := ih1 a ha
              rw [hae] at this
              simp [List.contains_cons] at this
        · simp only [hu, Bool.false_eq_true, if_false] at h
          cases h

theorem fetch_articles_mem {feeds : List (List RawEntry)} {now hours : Int}
    {wc : Bool} {cv : String → Except String String}
    {arts : List AnthropicScraper.AnthropicArticle}
    (h : AnthropicScraper.fetch_articles feeds now hours wc cv =
      Except.ok arts) :
    ∀ a ∈ arts, AnthropicScraper.cutoffOf now hours ≤ a.published_at := by
  intro a ha
  simp only [AnthropicScraper.fetch_articles] at h
  cases hr : AnthropicScraper.anthropicGo now
      (AnthropicScraper.cutoffOf now hours) wc cv feeds.flatten [] with
  | error msg => simp only [hr] at h; cases h
  | ok arts2 =>
    simp only [hr] at h
    cases h
    exact anthGo_mem hr a (mem_sortDesc.1 ha)

theorem fetch_articles_nodup {feeds : List (List RawEntry)}
    {now hours : Int} {wc : Bool} {cv : String → Except String String}
    {arts : List AnthropicScraper.AnthropicArticle}
    (h : AnthropicScraper.fetch_articles feeds now hours wc cv =
      Except.ok arts) :
    (arts.map (fun a => a.url)).Nodup := by
  simp only [AnthropicScraper.fetch_articles] at h
  cases hr : AnthropicScraper.anthropicGo now
      (AnthropicScraper.cutoffOf now hours) wc cv feeds.flatten [] with
  | error msg => simp only [hr] at h; cases h
  | ok arts2 =>
    simp only [hr] at h
    cases h
    have h2 := (anthGo_urls hr).2
    exact (((perm_sortDesc _ arts2).map (fun a => a.url)).nodup_iff).2 h2

theorem fetch_articles_sorted {feeds : List (List RawEntry)}
    {now hours : Int} {wc : Bool} {cv : String → Except String String}
    {arts : List AnthropicScraper.AnthropicArticle}
    (h : AnthropicScraper.fetch_articles feeds now hours wc cv =
      Except.ok arts) :
    List.Sorted (fun a b => b.published_at ≤ a.published_at) arts := by
  simp only [AnthropicScraper.fetch_articles] at h
  cases hr : AnthropicScraper.anthropicGo now
      (AnthropicScraper.cutoffOf now hours) wc cv feeds.flatten [] with
  | error msg => simp only [hr] at h; cases h
  | ok arts2 =>
    simp only [hr] at h
    cases h
    exact sorted_sortDesc _ arts2

theorem scrapeGo_mem (env : Runner.Env) :
    ∀ {channels : List String} {acc res : List Runner.TaggedVideo},
      Runner.scrapeYoutubeGo env channels acc = Except.ok res →
      ∀ v ∈ res, v ∈ acc ∨
        env.now - 3600 * env.hours ≤ v.meta.published_at := by
  intro channels
  induction channels with
  | nil =>
    intro acc res h v hv
    simp only [Runner.scrapeYoutubeGo] at h
    cases h
    exact Or.inl (mem_sortDesc.1 hv)
  | cons handle rest ih =>
    intro acc res h v hv
    simp only [Runner.scrapeYoutubeGo] at h
    cases hid : YouTubeScraper.get_channel_id env.fetchHtml handle with
    | none =>
      simp only [hid] at h
      exact ih h v hv
    | some cid =>
      simp only [hid] at h
      cases hg : YouTubeScraper.get_latest_videos (env.feedOf cid) env.now
          env.hours with
      | error msg => simp only [hg] at h; cases h
      | ok vids =>
        simp only [hg] at h
        rcases ih h v hv with hacc | hbound
        · rcases List.mem_append.1 hacc with h1 | h2
          · exact Or.inl h1
          · obtain ⟨m, hm, rfl⟩ := List.mem_map.1 h2
            exact Or.inr (get_latest_videos_mem hg m hm)
        · exact Or.inr hbound

theorem scrapeGo_sorted (env : Runner.Env) :
    ∀ {channels : List String} {acc res : List Runner.TaggedVideo},
      Runner.scrapeYoutubeGo env channels acc = Except.ok res →
      List.Sorted (fun a b : Runner.TaggedVideo =>
        b.meta.published_at ≤ a.meta.published_at) res := by
  intro channels
  induction channels with
  | nil =>
    intro acc res h
    simp only [Runner.scrapeYoutubeGo] at h
    cases h
    exact sorted_sortDesc _ acc
  | cons handle rest ih =>
    intro acc res h
    simp only [Runner.scrapeYoutubeGo] at h
    cases hid : YouTubeScraper.get_channel_id env.fetchHtml handle with
    | none =>
      simp only [hid] at h
      exact ih h
    | some cid =>
      simp only [hid] at h
      cases hg : YouTubeScraper.get_latest_videos (env.feedOf cid) env.now
          env.hours with
      | error msg => simp only [hg] at h; cases h
      | ok vids =>
        simp only [hg] at h
        exact ih h

theorem run_ok {env : Runner.Env} {rep : Runner.Report}
    (h : Runner.run env = Except.ok rep) :
    AnthropicScraper.fetch_articles env.anthropicFeeds env.now env.hours
        env.fetchContent env.convert = Except.ok rep.anthropic ∧
      Runner.scrapeYoutube env = Except.ok rep.youtube := by
  simp only [Runner.run] at h
  cases ha : AnthropicScraper.fetch_articles env.anthropicFeeds env.now
      env.hours env.fetchContent env.convert with
  | error msg => simp only [ha] at h; cases h
  | ok arts =>
    simp only [ha] at h
    cases hy : Runner.scrapeYoutube env with
    | error msg => simp only [hy] at h; cases h
    | ok vids =>
      simp only [hy] at h
      cases h
      exact ⟨rfl, rfl⟩

/-- C1 counterexample: a run in which two configured channels publish
the same video produces a merged YouTube result list whose identity
keys (video ids) are NOT pairwise distinct — `_scrape_youtube` has no
deduplication step. -/
theorem claim_C1_counterexample :
    Runner.scrapeYoutube envDup = Except.ok dupVideos ∧
    ¬ (dupVideos.map (fun v => v.meta.video_id)).Nodup := by
  exact ⟨by rfl, by decide⟩

/-- C1 (amended): only the Anthropic category is deduplicated: in every
successful `fetch_articles` result the URLs are pairwise distinct (1),
and an in-window entry whose URL is already in the seen set is dropped,
processing continuing with the same state, so the first occurrence wins
(2).  The YouTube merge keeps duplicates (see the counterexample). -/
theorem claim_C1_dedup_anthropic_only :
    (∀ feeds (now hours : Int) wc cv arts,
      AnthropicScraper.fetch_articles feeds now hours wc cv =
        Except.ok arts →
      (arts.map (fun a => a.url)).Nodup) ∧
    (∀ (now cutoff : Int) wc cv (e : RawEntry) rest seen,
      cutoff ≤ e.published_parsed.getD now →
      seen.contains (e.link.getD "") = true →
      AnthropicScraper.anthropicGo now cutoff wc cv (e :: rest) seen =
        AnthropicScraper.anthropicGo now cutoff wc cv rest seen) := by
  refine ⟨fun feeds now hours wc cv arts h => fetch_articles_nodup h, ?_⟩
  intro now cutoff wc cv e rest seen hcut hseen
  simp only [AnthropicScraper.anthropicGo]
  rw [if_neg (not_lt.2 hcut), hseen]
  simp

theorem claim_C1_witness :
    (repRun.anthropic.map (fun a => a.url)).Nodup ∧
    AnthropicScraper.anthropicGo 1000 0 false (fun _ => Except.ok "")
        [entryGood] ["https://example.com/a"] =
      AnthropicScraper.anthropicGo 1000 0 false (fun _ => Except.ok "")
        [] ["https://example.com/a"] := by
  refine ⟨claim_C1_dedup_anthropic_only.1 envRun.anthropicFeeds 500000 24
      false envRun.convert repRun.anthropic (by rfl), ?_⟩
  exact claim_C1_dedup_anthropic_only.2 1000 0 false (fun _ => Except.ok "")
    entryGood [] ["https://example.com/a"] (by decide) (by decide)

/-- C2: time-window filtering.  (1) In every successful run, every
Anthropic entry of the report is at or after the Anthropic cutoff and
every YouTube entry is at or after `now - hours`; (2) the Anthropic
cutoff is exactly `now - hours` rounded down to the start of its day;
(3) a YouTube entry whose parsed timestamp is strictly before the
cutoff is excluded; (4) an Anthropic entry whose parsed timestamp is
strictly before the (day-rounded) cutoff is excluded. -/
theorem claim_C2_window_filter :
    (∀ env rep, Runner.run env = Except.ok rep →
      (∀ a ∈ rep.anthropic,
        AnthropicScraper.cutoffOf env.now env.hours ≤ a.published_at) ∧
      (∀ v ∈ rep.youtube,
        env.now - 3600 * env.hours ≤ v.meta.published_at)) ∧
    (∀ now hours : Int, AnthropicScraper.cutoffOf now hours =
      startOfDay (now - 3600 * hours)) ∧
    (∀ (now cutoff : Int) (e : RawEntry) rest t,
      YouTubeScraper.parseDate e = some t → t < cutoff →
      YouTubeScraper.ytGo now cutoff (e :: rest) =
        YouTubeScraper.ytGo now cutoff rest) ∧
    (∀ (now cutoff : Int) wc cv (e : RawEntry) rest seen t,
      e.published_parsed = some t → t < cutoff →
      AnthropicScraper.anthropicGo now cutoff wc cv (e :: rest) seen =
        AnthropicScraper.anthropicGo now cutoff wc cv rest seen) := by
  refine ⟨?_, fun _ _ => rfl, ?_, ?_⟩
  · intro env rep h
    obtain ⟨ha, hy⟩ := run_ok h
    refine ⟨fetch_articles_mem ha, ?_⟩
    intro v hv
    rcases scrapeGo_mem env hy v hv with hacc | hb
    · simp at hacc
    · exact hb
  · intro now cutoff e rest t hp hlt
    simp [YouTubeScraper.ytGo, hp, if_pos hlt]
  · intro now cutoff wc cv e rest seen t hp hlt
    simp [AnthropicScraper.anthropicGo, hp, if_pos hlt]

theorem claim_C2_witness :
    Runner.run envRun = Except.ok repRun ∧
    AnthropicScraper.cutoffOf envRun.now envRun.hours ≤
      artRunB.published_at ∧
    envRun.now - 3600 * envRun.hours ≤ vidMetaB.published_at ∧
    YouTubeScraper.ytGo 1000 1000 [{ published_parsed := some 500 }] =
      YouTubeScraper.ytGo 1000 1000 [] ∧
    AnthropicScraper.anthropicGo 1000 1000 false (fun _ => Except.ok "")
        [{ published_parsed := some 500 }] [] =
      AnthropicScraper.anthropicGo 1000 1000 false (fun _ => Except.ok "")
        [] [] := by
  have h : Runner.run envRun = Except.ok repRun := by rfl
  refine ⟨h,
    (claim_C2_window_filter.1 envRun repRun h).1 artRunB (by decide),
    (claim_C2_window_filter.1 envRun repRun h).2
      { meta := vidMetaB
        channel := "UCaaaaaaaaaaaaaaaaaaaaaa"
        transcript := "hi" } (by decide),
    claim_C2_window_filter.2.2.1 1000 1000 _ [] 500 (by decide) (by decide),
    claim_C2_window_filter.2.2.2 1000 1000 false (fun _ => Except.ok "") _
      [] [] 500 (by decide) (by decide)⟩

/-- C3: every successfully returned adapter list, and both per-category
lists of a successful report, are sorted by publish timestamp
descending (adjacent — indeed all — later-positioned entries have
timestamps ≤ earlier ones).  The OpenAI adapter can only ever return
normally with an empty (hence trivially sorted) list, because of the
dedented loop body described at its definition. -/
theorem claim_C3_sorted_descending :
    (∀ feed (now hours : Int) vids,
      YouTubeScraper.get_latest_videos feed now hours = Except.ok vids →
      List.Sorted (fun a b => b.published_at ≤ a.published_at) vids) ∧
    (∀ feeds (now hours : Int) wc cv arts,
      AnthropicScraper.fetch_articles feeds now hours wc cv =
        Except.ok arts →
      List.Sorted (fun a b => b.published_at ≤ a.published_at) arts) ∧
    (∀ feed (now hours : Int) arts,
      OpenAIScraper.fetch_articles feed now hours = Except.ok arts →
      List.Sorted (fun a b => b.published_at ≤ a.published_at) arts) ∧
    (∀ feedOf (now d : Int) cat hours arts,
      MarketWatchRSS.get_latest feedOf now d cat hours = Except.ok arts →
      List.Sorted (fun a b => b.published ≤ a.published) arts) ∧
    (∀ feedOf (now d : Int) cat hours arts,
      LesAffairesRSS.get_latest feedOf now d cat hours = Except.ok arts →
      List.Sorted (fun a b => b.published ≤ a.published) arts) ∧
    (∀ env rep, Runner.run env = Except.ok rep →
      List.Sorted (fun a b => b.published_at ≤ a.published_at)
        rep.anthropic ∧
      List.Sorted (fun a b : Runner.TaggedVideo =>
        b.meta.published_at ≤ a.meta.published_at) rep.youtube) := by
  refine ⟨fun _ _ _ _ h => get_latest_videos_sorted h,
    fun _ _ _ _ _ _ h => fetch_articles_sorted h, ?_, ?_, ?_, ?_⟩
  · intro feed now hours arts h
    cases feed with
    | nil =>
      simp only [OpenAIScraper.fetch_articles] at h
      cases h
      exact List.sorted_nil
    | cons e rest =>
      simp only [OpenAIScraper.fetch_articles] at h
      cases hL : ((e :: rest).getLast (by simp)).published_parsed with
      | none => simp only [hL] at h; cases h
      | some t => simp only [hL] at h; cases h
  · intro feedOf now d cat hours arts h
    simp only [MarketWatchRSS.get_latest] at h
    by_cases hcat :
        (MarketWatchRSS.categories.contains (pythonLower cat)) = false
    · rw [if_pos hcat] at h
      cases h
    · rw [if_neg hcat] at h
      cases hr : MarketWatchRSS.mwGo
          (now - 3600 * MarketWatchRSS.effectiveHours hours d)
          (feedOf (pythonLower cat)) with
      | error msg => simp only [hr] at h; cases h
      | ok arts2 =>
        simp only [hr] at h
        cases h
        exact sorted_sortDesc _ arts2
  · intro feedOf now d cat hours arts h
    simp only [LesAffairesRSS.get_latest] at h
    by_cases hcat :
        (LesAffairesRSS.categories.contains (pythonLower cat)) = false
    · rw [if_pos hcat] at h
      cases h
    · rw [if_neg hcat] at h
      cases hr : LesAffairesRSS.laGo
          (now - 3600 * MarketWatchRSS.effectiveHours hours d)
          (feedOf (pythonLower cat)) with
      | error msg => simp only [hr] at h; cases h
      | ok arts2 =>
        simp only [hr] at h
        cases h
        exact sorted_sortDesc _ arts2
  · intro env rep h
    obtain ⟨ha, hy⟩ := run_ok h
    exact ⟨fetch_articles_sorted ha, scrapeGo_sorted env hy⟩

theorem claim_C3_witness :
    List.Sorted (fun a b => b.published_at ≤ a.published_at)
      [vidMetaA, vidMetaB] ∧
    List.Sorted (fun a b => b.published_at ≤ a.published_at)
      [artRunA, artRunB] ∧
    List.Sorted (fun a b => b.published_at ≤ a.published_at)
      ([] : List OpenAIScraper.OpenAIArticle) ∧
    List.Sorted (fun a b => b.published ≤ a.published) [mwArtA] ∧
    List.Sorted (fun a b => b.published ≤ a.published)
      ([] : List LesAffairesRSS.LAArticle) ∧
    (List.Sorted (fun a b => b.published_at ≤ a.published_at)
        repRun.anthropic ∧
      List.Sorted (fun a b : Runner.TaggedVideo =>
        b.meta.published_at ≤ a.meta.published_at) repRun.youtube) := by
  refine ⟨claim_C3_sorted_descending.1 [entryGood, entryGood2] 500000 24
      [vidMetaA, vidMetaB] (by rfl),
    claim_C3_sorted_descending.2.1 envRun.anthropicFeeds 500000 24 false
      envRun.convert [artRunA, artRunB] (by rfl),
    claim_C3_sorted_descending.2.2.1 [] 0 0 [] (by rfl),
    claim_C3_sorted_descending.2.2.2.1 (fun _ => [entryGood]) 500000 24
      "topstories" none [mwArtA] (by rfl),
    claim_C3_sorted_descending.2.2.2.2.1 (fun _ => []) 0 24 "techno" none []
      (by rfl),
    claim_C3_sorted_descending.2.2.2.2.2 envRun repRun (by rfl)⟩
